import Mathlib

/-!
Shallow embedding of the flash-sale purchase engine
(backend/src/services/purchase.js, backend/src/services/sale.js,
backend/src/services/redis.js, backend/src/routes/sale.js,
backend/src/db/postgres.js schema).

The durable store (PostgreSQL) is modelled as lists of rows; the fast
coordinator (Redis) as association lists for the per-sale stock counters
and the per-(sale,user) purchase marks.  Timestamps are integer instants.
Key TTLs are not modelled: every claim is about states within a single
sale window, before any mark expiry.
-/

namespace FlashSale

/-- Status column of the orders table: CHECK (status IN ('SUCCESS','FAILED')). -/
inductive OrderStatus where
  | SUCCESS
  | FAILED
deriving DecidableEq

/-- A row of the flash_sale table.  total_stock is a Nat because of the
schema constraint CHECK (total_stock >= 0). -/
structure Sale where
  id : Nat
  name : String
  startTime : Int
  endTime : Int
  totalStock : Nat
deriving DecidableEq

/-- A row of the orders table. -/
structure Order where
  id : Nat
  saleId : Nat
  userId : String
  status : OrderStatus
  createdAt : Int
deriving DecidableEq

/-- The durable store: flash_sale rows, orders rows, and the orders serial. -/
structure DB where
  sales : List Sale
  orders : List Order
  nextOrderId : Nat
deriving DecidableEq

/-- Redis state: per-sale stock counters (`sale:stock:<id>`) and
per-(sale,user) purchase marks (`sale:user:<id>:<user>`). -/
structure Redis where
  stock : List (Nat × Int)
  marks : List (Nat × String)
deriving DecidableEq

/-- The shared state seen by the admission pipeline. -/
structure SysState where
  db : DB
  redis : Redis
deriving DecidableEq

namespace redisService

/-- redis GET on the stock key (absent key gives none, as in redis.js getStock). -/
def getStock (r : Redis) (saleId : Nat) : Option Int :=
  (r.stock.find? (fun p => p.1 == saleId)).map (fun p => p.2)

/-- Store a value under the stock key (redis SET semantics). -/
def setStockVal (stock : List (Nat × Int)) (saleId : Nat) (n : Int) : List (Nat × Int) :=
  (saleId, n) :: stock.filter (fun p => p.1 != saleId)

/-- initializeStock from redis.js: unconditional SET of the stock key. -/
def initializeStock (r : Redis) (saleId : Nat) (n : Int) : Redis :=
  { r with stock := setStockVal r.stock saleId n }

/-- decrementStock from redis.js: redis DECR (an absent key counts as 0). -/
def decrementStock (r : Redis) (saleId : Nat) : Int × Redis :=
  let n := ((getStock r saleId).getD 0) - 1
  (n, { r with stock := setStockVal r.stock saleId n })

/-- incrementStock from redis.js: redis INCR, used for rollback. -/
def incrementStock (r : Redis) (saleId : Nat) : Int × Redis :=
  let n := ((getStock r saleId).getD 0) + 1
  (n, { r with stock := setStockVal r.stock saleId n })

/-- hasUserPurchased from redis.js: EXISTS on the user purchase key. -/
def hasUserPurchased (r : Redis) (saleId : Nat) (userId : String) : Bool :=
  r.marks.any (fun p => p.1 == saleId && p.2 == userId)

/-- markUserPurchased from redis.js: SET of the user purchase key (idempotent). -/
def markUserPurchased (r : Redis) (saleId : Nat) (userId : String) : Redis :=
  if hasUserPurchased r saleId userId then r
  else { r with marks := (saleId, userId) :: r.marks }

/-- removeUserPurchaseMark from redis.js: DEL of the user purchase key. -/
def removeUserPurchaseMark (r : Redis) (saleId : Nat) (userId : String) : Redis :=
  { r with marks := r.marks.filter (fun p => !(p.1 == saleId && p.2 == userId)) }

/-- resetSaleKeys from redis.js: delete the stock key and every purchase
mark of the sale. -/
def resetSaleKeys (r : Redis) (saleId : Nat) : Redis :=
  { stock := r.stock.filter (fun p => p.1 != saleId),
    marks := r.marks.filter (fun p => p.1 != saleId) }

end redisService

/-- SELECT ... FROM flash_sale WHERE id = $1 (sale.js getSaleById). -/
def DB.getSaleById (db : DB) (saleId : Nat) : Option Sale :=
  db.sales.find? (fun s => s.id == saleId)

/-- SELECT id FROM orders WHERE sale_id AND user_id AND status='SUCCESS'
(purchase.js hasUserPurchased, DB part). -/
def DB.hasSuccessOrder (db : DB) (saleId : Nat) (userId : String) : Bool :=
  db.orders.any (fun o =>
    o.saleId == saleId && o.userId == userId && o.status == OrderStatus.SUCCESS)

/-- Existence of any orders row for (sale_id, user_id): the domain of the
unique_user_sale constraint UNIQUE (user_id, sale_id), any status. -/
def DB.hasOrderRow (db : DB) (saleId : Nat) (userId : String) : Bool :=
  db.orders.any (fun o => o.saleId == saleId && o.userId == userId)

/-- COUNT of SUCCESS orders for a sale (sale.js calculateRemainingStockFromDB). -/
def DB.countSuccess (db : DB) (saleId : Nat) : Nat :=
  (db.orders.filter (fun o =>
    o.saleId == saleId && o.status == OrderStatus.SUCCESS)).length

/-- SELECT user_id FROM orders WHERE sale_id AND status='SUCCESS'
(sale.js getSuccessfulUserPurchases). -/
def DB.successUsers (db : DB) (saleId : Nat) : List String :=
  (db.orders.filter (fun o =>
    o.saleId == saleId && o.status == OrderStatus.SUCCESS)).map (fun o => o.userId)

/-- INSERT INTO orders (purchase.js createOrder); assigns the serial id. -/
def DB.insertOrder (db : DB) (now : Int) (saleId : Nat) (userId : String)
    (status : OrderStatus) : Order × DB :=
  let o : Order := ⟨db.nextOrderId, saleId, userId, status, now⟩
  (o, { db with orders := db.orders ++ [o], nextOrderId := db.nextOrderId + 1 })

namespace saleService

/-- Lifecycle states returned by sale.js getSaleStatus. -/
inductive SaleLifecycle where
  | UPCOMING
  | ACTIVE
  | ENDED
  | NOT_FOUND
deriving DecidableEq

/-- getSaleStatus from sale.js: pure function of the instant and the window. -/
def getSaleStatus (now : Int) (sale : Option Sale) : SaleLifecycle :=
  match sale with
  | none => .NOT_FOUND
  | some s =>
    if now < s.startTime then .UPCOMING
    else if now ≤ s.endTime then .ACTIVE
    else .ENDED

/-- isSaleActive from sale.js. -/
def isSaleActive (now : Int) (sale : Sale) : Bool :=
  getSaleStatus now (some sale) == .ACTIVE

/-- calculateRemainingStockFromDB from sale.js:
max(0, total_stock - count(SUCCESS)); 0 when the sale is absent. -/
def calculateRemainingStockFromDB (db : DB) (saleId : Nat) : Int :=
  match DB.getSaleById db saleId with
  | some sale => max 0 ((sale.totalStock : Int) - (DB.countSuccess db saleId : Int))
  | none => 0

/-- getRemainingStock from sale.js: Redis first (clamped at 0), DB fallback. -/
def getRemainingStock (st : SysState) (saleId : Nat) : Int :=
  match redisService.getStock st.redis saleId with
  | some n => max 0 n
  | none => calculateRemainingStockFromDB st.db saleId

/-- initializeRedisStock from sale.js: recompute remaining from the DB and
overwrite the Redis counter. -/
def initializeRedisStock (st : SysState) (saleId : Nat) : Int × SysState :=
  let remaining := calculateRemainingStockFromDB st.db saleId
  (remaining,
   { st with redis := redisService.initializeStock st.redis saleId remaining })

/-- completeRedisRecovery from sale.js: re-mark every user having a
SUCCESS order (stock is not touched). -/
def completeRedisRecovery (st : SysState) (saleId : Nat) : Nat × SysState :=
  let users := DB.successUsers st.db saleId
  (users.length,
   { st with redis :=
      users.foldl (fun r u => redisService.markUserPurchased r saleId u) st.redis })

/-- The sale-status payload assembled by sale.js getSaleStatusResponse. -/
structure SaleStatusResponse where
  status : SaleLifecycle
  remainingStock : Option Int
  totalStock : Option Nat
deriving DecidableEq

/-- getSaleStatusResponse from sale.js. -/
def getSaleStatusResponse (now : Int) (st : SysState) (saleId : Nat) :
    SaleStatusResponse :=
  match DB.getSaleById st.db saleId with
  | none => ⟨.NOT_FOUND, none, none⟩
  | some sale =>
    ⟨getSaleStatus now (some sale), some (getRemainingStock st saleId),
     some sale.totalStock⟩

/-- resetSale from sale.js: set total_stock, delete the sale's orders,
delete the sale's Redis keys, then set the Redis counter to the new stock. -/
def resetSale (st : SysState) (saleId : Nat) (newStock : Nat) : SysState :=
  let db1 : DB :=
    { st.db with
      sales := st.db.sales.map (fun s =>
        if s.id == saleId then { s with totalStock := newStock } else s),
      orders := st.db.orders.filter (fun o => o.saleId != saleId) }
  let r1 := redisService.resetSaleKeys st.redis saleId
  { db := db1, redis := redisService.initializeStock r1 saleId (newStock : Int) }

end saleService

namespace purchaseService

/-- The result codes of purchase.js PurchaseResult. -/
inductive PurchaseResult where
  | SUCCESS
  | ALREADY_PURCHASED
  | SOLD_OUT
  | SALE_NOT_ACTIVE
  | SALE_NOT_FOUND
  | ERROR
deriving DecidableEq

/-- Observable external operations performed by one request (each one is
an awaited FC or DOL call in the source). -/
inductive Ev where
  | dbSaleRead
  | redisMarkCheck
  | dbDupCheck
  | decrStock
  | incrStock
  | setMark
  | removeMark
  | dbInsert
deriving DecidableEq

/-- Non-duplicate failure modes of the durable insert (spec §7 taxonomy;
purchase.js treats every error with code other than 23505 alike). -/
inductive DbFault where
  | TRANSIENT
  | FATAL
deriving DecidableEq

/-- Injected failures of the external calls: a thrown Redis read in
hasUserPurchased, a thrown DECR, a thrown mark SET, and a non-duplicate
error of the DB insert.  Compensation calls are modelled as succeeding. -/
structure Faults where
  redisCheckFail : Bool
  decrFail : Bool
  markFail : Bool
  insertFault : Option DbFault
deriving DecidableEq

/-- The fault-free execution. -/
def noFaults : Faults := ⟨false, false, false, none⟩

/-- The observable outcome of processPurchase: the response fields, the
post-state, and the trace of external operations performed. -/
structure PurchaseOutcome where
  result : PurchaseResult
  remainingStock : Option Int
  order : Option Order
  state : SysState
  trace : List Ev
deriving DecidableEq

/-- hasUserPurchased from purchase.js: try the Redis mark; on a hit return
true; otherwise (mark absent, or the Redis call threw) run the DB query
for a SUCCESS row.  The second component records the reads performed. -/
def hasUserPurchased (f : Faults) (st : SysState) (saleId : Nat) (userId : String) :
    Bool × List Ev :=
  if f.redisCheckFail then
    (DB.hasSuccessOrder st.db saleId userId, [Ev.dbDupCheck])
  else if redisService.hasUserPurchased st.redis saleId userId then
    (true, [Ev.redisMarkCheck])
  else
    (DB.hasSuccessOrder st.db saleId userId, [Ev.redisMarkCheck, Ev.dbDupCheck])

/-- getUserPurchase from purchase.js: the latest orders row for
(sale_id, user_id), any status (ORDER BY created_at DESC LIMIT 1; the
tie-break among equal created_at is unspecified in SQL). -/
def getUserPurchase (db : DB) (saleId : Nat) (userId : String) : Option Order :=
  (db.orders.filter (fun o => o.saleId == saleId && o.userId == userId)).foldl
    (fun acc o =>
      match acc with
      | none => some o
      | some b => if b.createdAt ≤ o.createdAt then some o else some b)
    none

/-- processPurchase from purchase.js, sequential execution (the request's
steps run without interleaved requests; concurrency is treated by the
transition system below).  Step numbers follow the source comments. -/
def processPurchase (now : Int) (f : Faults) (st : SysState) (userId : String)
    (saleId : Nat) : PurchaseOutcome :=
  -- Step 1: sale lookup and window validation
  match DB.getSaleById st.db saleId with
  | none => ⟨.SALE_NOT_FOUND, none, none, st, [Ev.dbSaleRead]⟩
  | some sale =>
    if saleService.isSaleActive now sale then
      -- Step 2: fast rejection via hasUserPurchased
      let checked := hasUserPurchased f st saleId userId
      if checked.1 then
        ⟨.ALREADY_PURCHASED, none, none, st, Ev.dbSaleRead :: checked.2⟩
      else if f.decrFail then
        -- decrementStock threw: stockDecremented and userMarked are still
        -- false, so the catch block compensates nothing
        ⟨.ERROR, none, none, st, Ev.dbSaleRead :: checked.2⟩
      else
        -- Step 3: atomic decrement
        let dec := redisService.decrementStock st.redis saleId
        let st1 : SysState := { st with redis := dec.2 }
        let tr1 := Ev.dbSaleRead :: checked.2 ++ [Ev.decrStock]
        if dec.1 < 0 then
          -- oversell guard: restore the counter and reject
          ⟨.SOLD_OUT, none, none,
           { st1 with redis := (redisService.incrementStock st1.redis saleId).2 },
           tr1 ++ [Ev.incrStock]⟩
        else if f.markFail then
          -- markUserPurchased threw: catch rolls back the decrement only
          ⟨.ERROR, none, none,
           { st1 with redis := (redisService.incrementStock st1.redis saleId).2 },
           tr1 ++ [Ev.incrStock]⟩
        else
          -- Step 4: mark the user before the DB write
          let st2 : SysState :=
            { st1 with redis := redisService.markUserPurchased st1.redis saleId userId }
          let tr2 := tr1 ++ [Ev.setMark]
          -- Step 5: durable insert, with step-6 compensation on failure
          match f.insertFault with
          | some _ =>
            -- non-23505 error: full rollback (increment, then remove mark)
            let r1 := (redisService.incrementStock st2.redis saleId).2
            ⟨.ERROR, none, none,
             { st2 with redis := redisService.removeUserPurchaseMark r1 saleId userId },
             tr2 ++ [Ev.dbInsert, Ev.incrStock, Ev.removeMark]⟩
          | none =>
            if DB.hasOrderRow st2.db saleId userId then
              -- unique_user_sale violation (code 23505): restore the unit,
              -- return ALREADY_PURCHASED, keep the mark
              ⟨.ALREADY_PURCHASED, none, none,
               { st2 with redis := (redisService.incrementStock st2.redis saleId).2 },
               tr2 ++ [Ev.dbInsert, Ev.incrStock]⟩
            else
              let ins := DB.insertOrder st2.db now saleId userId OrderStatus.SUCCESS
              ⟨.SUCCESS, some dec.1, some ins.1, { st2 with db := ins.2 },
               tr2 ++ [Ev.dbInsert]⟩
    else
      ⟨.SALE_NOT_ACTIVE, none, none, st, [Ev.dbSaleRead]⟩

end purchaseService

namespace routes

/-- GET /purchase/:userId from routes/sale.js: purchased is true exactly
when getUserPurchase found a row. -/
def getUserPurchaseRoute (st : SysState) (saleId : Nat) (userId : String) :
    Bool × Option Order :=
  match purchaseService.getUserPurchase st.db saleId userId with
  | some o => (true, some o)
  | none => (false, none)

end routes

/-- The crash-recovery sequence of the claims: InitStock
(initializeRedisStock) followed by RecoverUserMarks (completeRedisRecovery),
starting from a coordinator that lost all its state. -/
def initThenRecover (db : DB) (saleId : Nat) : SysState :=
  (saleService.completeRedisRecovery
    ((saleService.initializeRedisStock ⟨db, ⟨[], []⟩⟩ saleId).2) saleId).2

/-- An always-active sample sale window used by the concrete witnesses. -/
def wSale (total : Nat) : Sale := ⟨1, "Flash Sale Event", 0, 100, total⟩

/-- Witness state for C3: stock counter 1, no orders, no marks. -/
def wStC3 : SysState := ⟨⟨[wSale 1], [], 1⟩, ⟨[(1, 1)], []⟩⟩

/-- Witness state for C4: counter 3 and one FAILED row for the user, so the
step-2 check (SUCCESS only) passes but the insert hits unique_user_sale. -/
def wStC4 : SysState :=
  ⟨⟨[wSale 3], [⟨1, 1, "u", OrderStatus.FAILED, 2⟩], 2⟩, ⟨[(1, 3)], []⟩⟩

/-- Witness state for C5: counter 5, no orders, no marks (spec scenario
"FatalDurable at step 6 against stock=5"). -/
def wStC5 : SysState := ⟨⟨[wSale 5], [], 1⟩, ⟨[(1, 5)], []⟩⟩

/-- Witness/counterexample state for C6: Redis available with no mark,
while the durable log has a SUCCESS row for the user. -/
def wStC6 : SysState :=
  ⟨⟨[wSale 2], [⟨1, 1, "alice", OrderStatus.SUCCESS, 3⟩], 2⟩, ⟨[(1, 1)], []⟩⟩

/-- Second witness state for C6: the mark is present. -/
def wStC6m : SysState := ⟨⟨[wSale 2], [], 1⟩, ⟨[(1, 2)], [(1, "bob")]⟩⟩

/-- Witness state for C7: a normal state in which the decrement fails. -/
def wStC7 : SysState := ⟨⟨[wSale 4], [], 1⟩, ⟨[(1, 4)], []⟩⟩

/-- Witness state for C8: old stock 2, one SUCCESS order, one mark. -/
def wStC8 : SysState :=
  ⟨⟨[wSale 2], [⟨1, 1, "u1", OrderStatus.SUCCESS, 3⟩], 2⟩, ⟨[(1, 1)], [(1, "u1")]⟩⟩

/-- Witness DB for C9: total stock 3, two SUCCESS orders. -/
def wDbC9 : DB :=
  ⟨[wSale 3], [⟨1, 1, "u1", OrderStatus.SUCCESS, 3⟩,
    ⟨2, 1, "u2", OrderStatus.SUCCESS, 4⟩], 3⟩

namespace Conc

/-!
Interleaving semantics of concurrent processPurchase requests against one
active sale.  Every awaited FC/DOL call of purchase.js is one atomic
transition; between transitions any other request may run (spec §5:
"Every call to FC or DOL is a suspension point").  Sales are independent
(every FC key and the uniqueness constraint are namespaced by sale_id),
so the state of one sale is modelled.  Requests on an inactive or
missing sale return without touching FC or DOL and are represented by
the saleInactive transition.  Compensating calls are modelled as
succeeding (their failures are only logged in the source).
-/

/-- The shared state of one sale: the FC counter, the FC user marks and
the DOL order rows (user and status; ids and timestamps are irrelevant
to the invariants). -/
structure GState where
  stock : Int
  marks : List String
  orders : List (String × OrderStatus)
deriving DecidableEq

/-- Any orders row for the user (the domain of unique_user_sale). -/
def hasRow (g : GState) (u : String) : Bool :=
  g.orders.any (fun o => o.1 == u)

/-- A SUCCESS orders row for the user (the step-2 DB query). -/
def hasSuccessRow (g : GState) (u : String) : Bool :=
  g.orders.any (fun o => o.1 == u && o.2 == OrderStatus.SUCCESS)

/-- Number of SUCCESS orders of the sale. -/
def countSuccessOrders (g : GState) : Nat :=
  (g.orders.filter (fun o => o.2 == OrderStatus.SUCCESS)).length

/-- Number of SUCCESS orders of the user. -/
def countSuccessFor (g : GState) (u : String) : Nat :=
  (g.orders.filter (fun o => o.1 == u && o.2 == OrderStatus.SUCCESS)).length

/-- The FC mark of the user (EXISTS on the user purchase key). -/
def redisMark (g : GState) (u : String) : Bool :=
  g.marks.any (fun v => v == u)

/-- SET of the user purchase key (idempotent). -/
def insertMark (u : String) (ms : List String) : List String :=
  if u ∈ ms then ms else u :: ms

/-- DEL of the user purchase key. -/
def removeMark (u : String) (ms : List String) : List String :=
  ms.filter (fun v => v != u)

/-- The program counter of one in-flight request, between awaited calls.
decred and marked carry newStock, the value returned by the DECR. -/
inductive Pc where
  | start
  | redisChecked
  | checked
  | decred (n : Int)
  | marked (n : Int)
  | compDup
  | compErr
  | errIncred
  | done (r : purchaseService.PurchaseResult)
deriving DecidableEq

/-- One in-flight request: its user and its program counter. -/
structure Req where
  user : String
  pc : Pc
deriving DecidableEq

/-- A configuration: the shared sale state and the in-flight requests. -/
structure Conf where
  g : GState
  reqs : List Req
deriving DecidableEq

/-- The atomic transitions of one request, each performing at most one
FC/DOL call, following processPurchase step by step. -/
inductive ReqStep (u : String) : GState → Pc → GState → Pc → Prop where
  /-- Step 1 outcome when the sale is not active: return without any
  FC/DOL mutation. -/
  | saleInactive (g : GState) :
      ReqStep u g .start g (.done .SALE_NOT_ACTIVE)
  /-- Step 2, Redis read: the mark exists, fast rejection. -/
  | markHit (g : GState) (h : redisMark g u = true) :
      ReqStep u g .start g (.done .ALREADY_PURCHASED)
  /-- Step 2, Redis read: mark absent — or the Redis call threw — so the
  DB query runs next. -/
  | markMiss (g : GState) :
      ReqStep u g .start g .redisChecked
  /-- Step 2, DB read: a SUCCESS row exists, rejection. -/
  | dbHit (g : GState) (h : hasSuccessRow g u = true) :
      ReqStep u g .redisChecked g (.done .ALREADY_PURCHASED)
  /-- Step 2, DB read: no SUCCESS row, proceed. -/
  | dbMiss (g : GState) (h : hasSuccessRow g u = false) :
      ReqStep u g .redisChecked g .checked
  /-- Step 3: the atomic DECR. -/
  | decr (g : GState) :
      ReqStep u g .checked { g with stock := g.stock - 1 } (.decred (g.stock - 1))
  /-- Step 3 with the coordinator unavailable: ERROR, nothing changed. -/
  | decrFail (g : GState) :
      ReqStep u g .checked g (.done .ERROR)
  /-- Oversell guard: newStock < 0, compensating INCR, SOLD_OUT. -/
  | soldOut (g : GState) (n : Int) (h : n < 0) :
      ReqStep u g (.decred n) { g with stock := g.stock + 1 } (.done .SOLD_OUT)
  /-- Step 4: the mark SET (acceptance requires newStock >= 0). -/
  | mark (g : GState) (n : Int) (h : 0 ≤ n) :
      ReqStep u g (.decred n) { g with marks := insertMark u g.marks } (.marked n)
  /-- Step 4 threw: the catch rolls back the decrement only (userMarked
  is still false). -/
  | markFail (g : GState) (n : Int) (h : 0 ≤ n) :
      ReqStep u g (.decred n) { g with stock := g.stock + 1 } (.done .ERROR)
  /-- Step 5, insert commits: no row for the user existed. -/
  | insertOk (g : GState) (n : Int) (h : hasRow g u = false) :
      ReqStep u g (.marked n)
        { g with orders := g.orders ++ [(u, OrderStatus.SUCCESS)] } (.done .SUCCESS)
  /-- Step 5, unique_user_sale violation: the transaction rolls back. -/
  | insertDup (g : GState) (n : Int) (h : hasRow g u = true) :
      ReqStep u g (.marked n) g .compDup
  /-- Step 5, transient or fatal DB error: the transaction rolls back. -/
  | insertErr (g : GState) (n : Int) :
      ReqStep u g (.marked n) g .compErr
  /-- Step 6a: compensating INCR, ALREADY_PURCHASED, mark kept. -/
  | dupIncr (g : GState) :
      ReqStep u g .compDup { g with stock := g.stock + 1 } (.done .ALREADY_PURCHASED)
  /-- Step 6b, first compensation: the INCR. -/
  | errIncr (g : GState) :
      ReqStep u g .compErr { g with stock := g.stock + 1 } .errIncred
  /-- Step 6b, second compensation: clear the mark, ERROR. -/
  | errClear (g : GState) :
      ReqStep u g .errIncred { g with marks := removeMark u g.marks } (.done .ERROR)

/-- One interleaving step: some in-flight request takes its next step. -/
inductive Step : Conf → Conf → Prop where
  | mk (l r : List Req) (u : String) (p p' : Pc) (g g' : GState)
      (h : ReqStep u g p g' p') :
      Step ⟨g, l ++ ⟨u, p⟩ :: r⟩ ⟨g', l ++ ⟨u, p'⟩ :: r⟩

/-- The initial configuration: counter = total_stock (bootstrap done), no
marks, no orders, every request at its start. -/
def init (total : Nat) (users : List String) : Conf :=
  ⟨⟨(total : Int), [], []⟩, users.map (fun u => ⟨u, .start⟩)⟩

/-- The reachable configurations of a burst of requests. -/
def Reachable (total : Nat) (users : List String) (c : Conf) : Prop :=
  Relation.ReflTransGen Step (init total users) c

/-- A request holding one provisionally consumed unit: it decremented to a
non-negative value and has neither committed nor compensated yet. -/
def Pc.isHolder : Pc → Bool
  | .decred n => decide (0 ≤ n)
  | .marked _ => true
  | .compDup => true
  | .compErr => true
  | _ => false

/-- A request whose decrement went negative and whose compensating INCR is
still pending. -/
def Pc.isNegPending : Pc → Bool
  | .decred n => decide (n < 0)
  | _ => false

/-- Number of unit-holding in-flight requests. -/
def holders (rs : List Req) : Nat :=
  (rs.filter (fun q => Pc.isHolder q.pc)).length

/-- Number of in-flight requests with a pending negative compensation. -/
def negPending (rs : List Req) : Nat :=
  (rs.filter (fun q => Pc.isNegPending q.pc)).length

/-- The inductive invariant: unit conservation (counter + committed +
held + pending-negative = total), the counter is never more negative than
the pending compensations, the order rows have pairwise distinct users
(unique_user_sale), and every accepted request saw a non-negative
decrement. -/
def Inv (total : Nat) (c : Conf) : Prop :=
  c.g.stock + (countSuccessOrders c.g : Int) + (holders c.reqs : Int)
      + (negPending c.reqs : Int) = (total : Int)
  ∧ -(negPending c.reqs : Int) ≤ c.g.stock
  ∧ List.Pairwise (fun a b : String × OrderStatus => a.1 ≠ b.1) c.g.orders
  ∧ ∀ q ∈ c.reqs, ∀ n : Int, q.pc = Pc.marked n → 0 ≤ n

lemma holders_middle (l r : List Req) (u : String) (p : Pc) :
    holders (l ++ ⟨u, p⟩ :: r)
      = holders l + (if Pc.isHolder p then 1 else 0) + holders r := by
  simp only [holders, List.filter_append, List.length_append, List.filter_cons]
  split <;> simp <;> omega

lemma negPending_middle (l r : List Req) (u : String) (p : Pc) :
    negPending (l ++ ⟨u, p⟩ :: r)
      = negPending l + (if Pc.isNegPending p then 1 else 0) + negPending r := by
  simp only [negPending, List.filter_append, List.length_append, List.filter_cons]
  split <;> simp <;> omega

lemma countSuccessOrders_def (g : GState) :
    countSuccessOrders g
      = (g.orders.filter (fun o => o.2 == OrderStatus.SUCCESS)).length := rfl

lemma marked_bound_middle {l r : List Req} {u : String} {p p' : Pc}
    (h4 : ∀ q ∈ l ++ (⟨u, p⟩ : Req) :: r, ∀ n : Int, q.pc = Pc.marked n → 0 ≤ n)
    (hp' : ∀ n : Int, p' = Pc.marked n → 0 ≤ n) :
    ∀ q ∈ l ++ (⟨u, p'⟩ : Req) :: r, ∀ n : Int, q.pc = Pc.marked n → 0 ≤ n := by
  intro q hq n hn
  rcases (by simpa using hq : q ∈ l ∨ q = (⟨u, p'⟩ : Req) ∨ q ∈ r) with h | h | h
  · exact h4 q (by simp [h]) n hn
  · subst h; exact hp' n hn
  · exact h4 q (by simp [h]) n hn

lemma pairwise_snoc_order {os : List (String × OrderStatus)} {u : String}
    {st : OrderStatus}
    (h3 : List.Pairwise (fun a b : String × OrderStatus => a.1 ≠ b.1) os)
    (hu : ∀ o ∈ os, o.1 ≠ u) :
    List.Pairwise (fun a b : String × OrderStatus => a.1 ≠ b.1)
      (os ++ [(u, st)]) := by
  rw [List.pairwise_append]
  refine ⟨h3, List.pairwise_singleton _ _, ?_⟩
  intro a ha b hb
  simp only [List.mem_singleton] at hb
  subst hb
  exact hu a ha

lemma holders_map_start (users : List String) :
    holders (users.map (fun u => ⟨u, .start⟩)) = 0 := by
  induction users with
  | nil => rfl
  | cons a t ih => simpa [holders, List.filter_cons, Pc.isHolder] using ih

lemma negPending_map_start (users : List String) :
    negPending (users.map (fun u => ⟨u, .start⟩)) = 0 := by
  induction users with
  | nil => rfl
  | cons a t ih => simpa [negPending, List.filter_cons, Pc.isNegPending] using ih

lemma inv_init (total : Nat) (users : List String) : Inv total (init total users) := by
  refine ⟨?_, ?_, ?_, ?_⟩
  · simp [init, countSuccessOrders, holders_map_start, negPending_map_start]
  · simp [init, negPending_map_start]
  · simp [init]
  · intro q hq n hn
    simp only [init, List.mem_map] at hq
    obtain ⟨v, _, rfl⟩ := hq
    simp at hn

lemma inv_step {total : Nat} {c c' : Conf} (hs : Step c c') (hi : Inv total c) :
    Inv total c' := by
  cases hs with
  | mk l r u p p' g g' h =>
    obtain ⟨h1, h2, h3, h4⟩ := hi
    cases h with
    | saleInactive =>
      refine ⟨?_, ?_, h3, marked_bound_middle h4 (by intro n hn; cases hn)⟩ <;>
        (simp only [holders_middle, negPending_middle, Pc.isHolder,
           Pc.isNegPending, countSuccessOrders_def] at h1 h2 ⊢
         simp at h1 h2 ⊢ <;> omega)
    | markHit hm =>
      refine ⟨?_, ?_, h3, marked_bound_middle h4 (by intro n hn; cases hn)⟩ <;>
        (simp only [holders_middle, negPending_middle, Pc.isHolder,
           Pc.isNegPending, countSuccessOrders_def] at h1 h2 ⊢
         simp at h1 h2 ⊢ <;> omega)
    | markMiss =>
      refine ⟨?_, ?_, h3, marked_bound_middle h4 (by intro n hn; cases hn)⟩ <;>
        (simp only [holders_middle, negPending_middle, Pc.isHolder,
           Pc.isNegPending, countSuccessOrders_def] at h1 h2 ⊢
         simp at h1 h2 ⊢ <;> omega)
    | dbHit hm =>
      refine ⟨?_, ?_, h3, marked_bound_middle h4 (by intro n hn; cases hn)⟩ <;>
        (simp only [holders_middle, negPending_middle, Pc.isHolder,
           Pc.isNegPending, countSuccessOrders_def] at h1 h2 ⊢
         simp at h1 h2 ⊢ <;> omega)
    | dbMiss hm =>
      refine ⟨?_, ?_, h3, marked_bound_middle h4 (by intro n hn; cases hn)⟩ <;>
        (simp only [holders_middle, negPending_middle, Pc.isHolder,
           Pc.isNegPending, countSuccessOrders_def] at h1 h2 ⊢
         simp at h1 h2 ⊢ <;> omega)
    | decr =>
      refine ⟨?_, ?_, h3, marked_bound_middle h4 (by intro n hn; cases hn)⟩ <;>
        (simp only [holders_middle, negPending_middle, Pc.isHolder,
           Pc.isNegPending, countSuccessOrders_def, decide_eq_true_eq] at h1 h2 ⊢
         by_cases hc : (0 : Int) ≤ g.stock - 1 <;>
           simp [hc, show (g.stock - 1 < 0) ↔ ¬ (0 : Int) ≤ g.stock - 1 by omega]
             at h1 h2 ⊢ <;> omega)
    | decrFail =>
      refine ⟨?_, ?_, h3, marked_bound_middle h4 (by intro n hn; cases hn)⟩ <;>
        (simp only [holders_middle, negPending_middle, Pc.isHolder,
           Pc.isNegPending, countSuccessOrders_def] at h1 h2 ⊢
         simp at h1 h2 ⊢ <;> omega)
    | soldOut n hn =>
      refine ⟨?_, ?_, h3, marked_bound_middle h4 (by intro m hm; cases hm)⟩ <;>
        (simp only [holders_middle, negPending_middle, Pc.isHolder,
           Pc.isNegPending, countSuccessOrders_def, decide_eq_true_eq] at h1 h2 ⊢
         simp [hn, show ¬ (0 : Int) ≤ n by omega] at h1 h2 ⊢ <;> omega)
    | mark n hn =>
      refine ⟨?_, ?_, h3,
        marked_bound_middle h4 (by intro m hm; cases hm; exact hn)⟩ <;>
        (simp only [holders_middle, negPending_middle, Pc.isHolder,
           Pc.isNegPending, countSuccessOrders_def, decide_eq_true_eq] at h1 h2 ⊢
         simp [hn, show ¬ (n < 0) by omega] at h1 h2 ⊢ <;> omega)
    | markFail n hn =>
      refine ⟨?_, ?_, h3, marked_bound_middle h4 (by intro m hm; cases hm)⟩ <;>
        (simp only [holders_middle, negPending_middle, Pc.isHolder,
           Pc.isNegPending, countSuccessOrders_def, decide_eq_true_eq] at h1 h2 ⊢
         simp [hn, show ¬ (n < 0) by omega] at h1 h2 ⊢ <;> omega)
    | insertOk n hrow =>
      have hu : ∀ o ∈ g.orders, o.1 ≠ u := by
        simp only [hasRow] at hrow
        simp at hrow
        intro o ho
        exact hrow o.1 o.2 ho
      refine ⟨?_, ?_, pairwise_snoc_order h3 hu,
        marked_bound_middle h4 (by intro m hm; cases hm)⟩ <;>
        (simp only [holders_middle, negPending_middle, Pc.isHolder,
           Pc.isNegPending, countSuccessOrders_def] at h1 h2 ⊢
         simp at h1 h2 ⊢ <;> omega)
    | insertDup n hrow =>
      refine ⟨?_, ?_, h3, marked_bound_middle h4 (by intro m hm; cases hm)⟩ <;>
        (simp only [holders_middle, negPending_middle, Pc.isHolder,
           Pc.isNegPending, countSuccessOrders_def] at h1 h2 ⊢
         simp at h1 h2 ⊢ <;> omega)
    | insertErr n =>
      refine ⟨?_, ?_, h3, marked_bound_middle h4 (by intro m hm; cases hm)⟩ <;>
        (simp only [holders_middle, negPending_middle, Pc.isHolder,
           Pc.isNegPending, countSuccessOrders_def] at h1 h2 ⊢
         simp at h1 h2 ⊢ <;> omega)
    | dupIncr =>
      refine ⟨?_, ?_, h3, marked_bound_middle h4 (by intro m hm; cases hm)⟩ <;>
        (simp only [holders_middle, negPending_middle, Pc.isHolder,
           Pc.isNegPending, countSuccessOrders_def] at h1 h2 ⊢
         simp at h1 h2 ⊢ <;> omega)
    | errIncr =>
      refine ⟨?_, ?_, h3, marked_bound_middle h4 (by intro m hm; cases hm)⟩ <;>
        (simp only [holders_middle, negPending_middle, Pc.isHolder,
           Pc.isNegPending, countSuccessOrders_def] at h1 h2 ⊢
         simp at h1 h2 ⊢ <;> omega)
    | errClear =>
      refine ⟨?_, ?_, h3, marked_bound_middle h4 (by intro m hm; cases hm)⟩ <;>
        (simp only [holders_middle, negPending_middle, Pc.isHolder,
           Pc.isNegPending, countSuccessOrders_def] at h1 h2 ⊢
         simp at h1 h2 ⊢ <;> omega)

lemma inv_reachable {total : Nat} {users : List String} {c : Conf}
    (h : Reachable total users c) : Inv total c := by
  induction h with
  | refl => exact inv_init total users
  | tail _ hs ih => exact inv_step hs ih

lemma countSuccessFor_le_one {os : List (String × OrderStatus)}
    (h : List.Pairwise (fun a b : String × OrderStatus => a.1 ≠ b.1) os)
    (u : String) :
    (os.filter (fun o => o.1 == u && o.2 == OrderStatus.SUCCESS)).length ≤ 1 := by
  induction os with
  | nil => simp
  | cons a t ih =>
    obtain ⟨ha, ht⟩ := List.pairwise_cons.mp h
    by_cases hu : a.1 = u
    · have hnil : t.filter (fun o => o.1 == u && o.2 == OrderStatus.SUCCESS) = [] := by
        rw [List.filter_eq_nil_iff]
        intro o ho
        have hne := ha o ho
        simp only [Bool.and_eq_true, beq_iff_eq, not_and]
        intro h1 _
        exact hne (hu.trans h1.symm)
      rw [List.filter_cons]
      split
      · simp [hnil]
      · simp [hnil]
    · rw [List.filter_cons]
      have hfa : (a.1 == u && a.2 == OrderStatus.SUCCESS) = false := by
        simp [hu]
      rw [hfa]
      simpa using ih ht

end Conc

/-- C1: over any interleaving of concurrent Purchase requests, the number
of SUCCESS orders in the durable log never exceeds the sale's total_stock,
and every request that reached the accept path (mark written) saw a
non-negative value from the atomic decrement. -/
theorem C1_no_oversell (total : Nat) (users : List String) (c : Conc.Conf)
    (h : Conc.Reachable total users c) :
    Conc.countSuccessOrders c.g ≤ total ∧
    ∀ q ∈ c.reqs, ∀ n : Int, q.pc = Conc.Pc.marked n → 0 ≤ n := by
  obtain ⟨h1, h2, -, h4⟩ := Conc.inv_reachable h
  refine ⟨by omega, h4⟩

/-- Witness for C1: the invariant instantiated at a concrete reachable
configuration. -/
theorem C1_no_oversell_witness :
    Conc.countSuccessOrders (Conc.init 2 ["u1", "u2"]).g ≤ 2 ∧
    ∀ q ∈ (Conc.init 2 ["u1", "u2"]).reqs, ∀ n : Int,
      q.pc = Conc.Pc.marked n → 0 ≤ n :=
  C1_no_oversell 2 ["u1", "u2"] _ Relation.ReflTransGen.refl

/-- C2: in every reachable state of the interleaving semantics, each user
has at most one SUCCESS order row for the sale (enforced by the
unique_user_sale guard of the insert transition). -/
theorem C2_one_per_customer (total : Nat) (users : List String) (c : Conc.Conf)
    (h : Conc.Reachable total users c) (u : String) :
    Conc.countSuccessFor c.g u ≤ 1 := by
  obtain ⟨-, -, h3, -⟩ := Conc.inv_reachable h
  simpa [Conc.countSuccessFor] using Conc.countSuccessFor_le_one h3 u

/-- Witness for C2 at a concrete reachable configuration. -/
theorem C2_one_per_customer_witness :
    Conc.countSuccessFor (Conc.init 3 ["a", "b"]).g "a" ≤ 1 :=
  C2_one_per_customer 3 ["a", "b"] _ Relation.ReflTransGen.refl "a"

lemma getStock_mk_set (stock : List (Nat × Int)) (marks : List (Nat × String))
    (saleId : Nat) (n : Int) :
    redisService.getStock ⟨redisService.setStockVal stock saleId n, marks⟩ saleId
      = some n := by
  simp [redisService.getStock, redisService.setStockVal]

lemma any_marks_filter_not (ms : List (Nat × String)) (saleId : Nat) (u : String) :
    ((ms.filter (fun p => !(p.1 == saleId && p.2 == u))).any
      (fun p => p.1 == saleId && p.2 == u)) = false := by
  rw [List.any_eq_false]
  intro p hp
  have h2 := (List.mem_filter.mp hp).2
  simp only [Bool.not_eq_true'] at h2
  simp [h2]

lemma any_marks_filter_ne (ms : List (Nat × String)) (saleId : Nat) (u : String) :
    ((ms.filter (fun p => p.1 != saleId)).any
      (fun p => p.1 == saleId && p.2 == u)) = false := by
  rw [List.any_eq_false]
  intro p hp
  have h2 := (List.mem_filter.mp hp).2
  simp only [bne_iff_ne, ne_eq] at h2
  simp [h2]

lemma length_filter_eq_of_filter_ne (os : List Order) (saleId : Nat) :
    ((os.filter (fun o => o.saleId != saleId)).filter
      (fun o => o.saleId == saleId)).length = 0 := by
  rw [List.length_eq_zero, List.filter_eq_nil_iff]
  intro o ho
  have h2 := (List.mem_filter.mp ho).2
  simpa using h2

lemma find?_update_stock (ss : List Sale) (saleId : Nat) (S : Nat) (sale : Sale)
    (h : ss.find? (fun s => s.id == saleId) = some sale) :
    (ss.map (fun s => if s.id == saleId then { s with totalStock := S } else s)).find?
        (fun s => s.id == saleId) = some { sale with totalStock := S } := by
  induction ss with
  | nil => simp at h
  | cons a t ih =>
    by_cases ha : (a.id == saleId) = true
    · simp only [List.find?, ha] at h
      cases h
      simp only [List.map_cons, if_pos ha]
      simp [List.find?, ha]
    · rw [Bool.not_eq_true] at ha
      simp only [List.find?, ha] at h
      simp only [List.map_cons]
      rw [if_neg (by simp [ha])]
      simp only [List.find?, ha]
      exact ih h

lemma foldl_pick_some (l : List Order) (b : Order) :
    (l.foldl (fun acc o =>
      match acc with
      | none => some o
      | some c => if c.createdAt ≤ o.createdAt then some o else some c) (some b)).isSome
      = true := by
  induction l generalizing b with
  | nil => rfl
  | cons a t ih =>
    rw [List.foldl_cons]
    by_cases h : b.createdAt ≤ a.createdAt <;> simp [h, ih]

lemma getUserPurchase_isSome (db : DB) (saleId : Nat) (userId : String) :
    (purchaseService.getUserPurchase db saleId userId).isSome
      = DB.hasOrderRow db saleId userId := by
  rw [purchaseService.getUserPurchase, DB.hasOrderRow]
  cases hfe : db.orders.filter (fun o => o.saleId == saleId && o.userId == userId) with
  | nil =>
    rw [List.foldl_nil]
    have hall := List.filter_eq_nil_iff.mp hfe
    have hany : (db.orders.any fun o => o.saleId == saleId && o.userId == userId) = false := by
      rw [List.any_eq_false]
      intro o ho
      simpa using hall o ho
    simp [hany]
  | cons a t =>
    simp only [List.foldl_cons]
    rw [foldl_pick_some]
    have ha : a ∈ db.orders.filter (fun o => o.saleId == saleId && o.userId == userId) := by
      rw [hfe]; exact List.mem_cons_self a t
    have hcond := (List.mem_filter.mp ha).2
    have hmem := (List.mem_filter.mp ha).1
    symm
    rw [List.any_eq_true]
    exact ⟨a, hmem, hcond⟩

lemma hasSuccessOrder_hasOrderRow {db : DB} {saleId : Nat} {u : String}
    (h : DB.hasSuccessOrder db saleId u = true) :
    DB.hasOrderRow db saleId u = true := by
  rw [DB.hasSuccessOrder, List.any_eq_true] at h
  obtain ⟨o, ho, hc⟩ := h
  simp only [Bool.and_eq_true] at hc
  rw [DB.hasOrderRow, List.any_eq_true]
  exact ⟨o, ho, by simp [hc.1.1, hc.1.2]⟩

lemma hasMark_mark (r : Redis) (saleId : Nat) (a u : String) :
    redisService.hasUserPurchased (redisService.markUserPurchased r saleId a) saleId u
      = (redisService.hasUserPurchased r saleId u || a == u) := by
  by_cases h : redisService.hasUserPurchased r saleId a = true
  · rw [redisService.markUserPurchased, if_pos h]
    by_cases hau : a = u
    · subst hau; simp [h]
    · simp [show (a == u) = false by simp [hau]]
  · rw [redisService.markUserPurchased, if_neg (by simp [h])]
    simp only [redisService.hasUserPurchased, List.any_cons]
    simp [Bool.or_comm]

lemma hasMark_foldl_mark (users : List String) (r : Redis) (saleId : Nat) (u : String) :
    redisService.hasUserPurchased
      (users.foldl (fun r v => redisService.markUserPurchased r saleId v) r) saleId u
      = (redisService.hasUserPurchased r saleId u || users.any (fun v => v == u)) := by
  induction users generalizing r with
  | nil => simp
  | cons a t ih =>
    rw [List.foldl_cons, ih, hasMark_mark]
    simp [Bool.or_assoc]

lemma getStock_foldl_mark (users : List String) (r : Redis) (saleId sid : Nat) :
    redisService.getStock
      (users.foldl (fun r v => redisService.markUserPurchased r saleId v) r) sid
      = redisService.getStock r sid := by
  induction users generalizing r with
  | nil => rfl
  | cons a t ih =>
    rw [List.foldl_cons, ih]
    by_cases h : redisService.hasUserPurchased r saleId a = true
    · rw [redisService.markUserPurchased, if_pos h]
    · rw [redisService.markUserPurchased, if_neg (by simp [h])]
      rfl

/-- C3: on an active sale, for a user with no mark and no SUCCESS row,
with the counter holding s: if the decrement result s-1 is negative the
pipeline compensates and returns SOLD_OUT with the counter restored to s;
if s-1 is non-negative and the insert commits it returns SUCCESS with
remaining_stock = s-1. -/
theorem C3_oversell_guard (now : Int) (st : SysState) (sale : Sale) (saleId : Nat)
    (userId : String) (s : Int)
    (hsale : DB.getSaleById st.db saleId = some sale)
    (hactive : saleService.isSaleActive now sale = true)
    (hmark : redisService.hasUserPurchased st.redis saleId userId = false)
    (hnosucc : DB.hasSuccessOrder st.db saleId userId = false)
    (hstock : redisService.getStock st.redis saleId = some s) :
    (s - 1 < 0 →
      (purchaseService.processPurchase now purchaseService.noFaults st userId saleId).result
          = purchaseService.PurchaseResult.SOLD_OUT ∧
      redisService.getStock
        (purchaseService.processPurchase now purchaseService.noFaults st userId saleId).state.redis
        saleId = some s) ∧
    (0 ≤ s - 1 → DB.hasOrderRow st.db saleId userId = false →
      (purchaseService.processPurchase now purchaseService.noFaults st userId saleId).result
          = purchaseService.PurchaseResult.SUCCESS ∧
      (purchaseService.processPurchase now purchaseService.noFaults st userId saleId).remainingStock
          = some (s - 1)) := by
  constructor
  · intro hneg
    constructor <;>
      simp [purchaseService.processPurchase, purchaseService.hasUserPurchased,
        purchaseService.noFaults,
        redisService.decrementStock, redisService.incrementStock,
        hsale, hactive, hmark, hnosucc, hstock, hneg, getStock_mk_set,
        sub_add_cancel]
  · intro hpos hrow
    constructor <;>
      simp [purchaseService.processPurchase, purchaseService.hasUserPurchased,
        purchaseService.noFaults,
        redisService.decrementStock,
        hsale, hactive, hmark, hnosucc, hstock, hrow,
        show ¬ (s - 1 < 0) by omega]

/-- Witness for C3: decrement from stock 1 yields SUCCESS with remaining 0;
the next request is SOLD_OUT with the counter restored to 0. -/
theorem C3_oversell_guard_witness :
    (purchaseService.processPurchase 10 purchaseService.noFaults wStC3 "u1" 1).result
        = purchaseService.PurchaseResult.SUCCESS ∧
    (purchaseService.processPurchase 10 purchaseService.noFaults wStC3 "u1" 1).remainingStock
        = some 0 ∧
    (purchaseService.processPurchase 10 purchaseService.noFaults
        (purchaseService.processPurchase 10 purchaseService.noFaults wStC3 "u1" 1).state
        "u2" 1).result = purchaseService.PurchaseResult.SOLD_OUT ∧
    redisService.getStock
      (purchaseService.processPurchase 10 purchaseService.noFaults
        (purchaseService.processPurchase 10 purchaseService.noFaults wStC3 "u1" 1).state
        "u2" 1).state.redis 1 = some 0 := by
  have h := (C3_oversell_guard 10 wStC3 (wSale 1) 1 "u1" 1 (by decide) (by decide)
      (by decide) (by decide) (by decide)).2 (by decide) (by decide)
  refine ⟨h.1, ?_, by decide, by decide⟩
  simpa using h.2

/-- C4: when the durable insert fails on unique_user_sale (step 6a), the
pipeline increments the counter back to its pre-decrement value, returns
ALREADY_PURCHASED, leaves the user mark set, and writes no order. -/
theorem C4_duplicate_compensation (now : Int) (st : SysState) (sale : Sale)
    (saleId : Nat) (userId : String) (s : Int)
    (hsale : DB.getSaleById st.db saleId = some sale)
    (hactive : saleService.isSaleActive now sale = true)
    (hmark : redisService.hasUserPurchased st.redis saleId userId = false)
    (hnosucc : DB.hasSuccessOrder st.db saleId userId = false)
    (hstock : redisService.getStock st.redis saleId = some s)
    (hpos : 0 ≤ s - 1)
    (hrow : DB.hasOrderRow st.db saleId userId = true) :
    (purchaseService.processPurchase now purchaseService.noFaults st userId saleId).result
        = purchaseService.PurchaseResult.ALREADY_PURCHASED ∧
    redisService.getStock
      (purchaseService.processPurchase now purchaseService.noFaults st userId saleId).state.redis
      saleId = some s ∧
    redisService.hasUserPurchased
      (purchaseService.processPurchase now purchaseService.noFaults st userId saleId).state.redis
      saleId userId = true ∧
    (purchaseService.processPurchase now purchaseService.noFaults st userId saleId).state.db
        = st.db := by
  have hmark2 : redisService.hasUserPurchased
      ⟨redisService.setStockVal st.redis.stock saleId (s - 1), st.redis.marks⟩
      saleId userId = false := hmark
  refine ⟨?_, ?_, ?_, ?_⟩ <;>
    (simp only [purchaseService.processPurchase, purchaseService.hasUserPurchased,
      purchaseService.noFaults, redisService.decrementStock,
      redisService.incrementStock, redisService.markUserPurchased]
     simp [hsale, hactive, hmark, hnosucc, hstock, hrow, hmark2,
       show ¬ (s - 1 < 0) by omega, getStock_mk_set, sub_add_cancel]) <;>
    simp [redisService.hasUserPurchased]

/-- Witness for C4: a FAILED row for the user slips past the step-2
SUCCESS-only check and triggers the duplicate branch at the insert. -/
theorem C4_duplicate_compensation_witness :
    (purchaseService.processPurchase 10 purchaseService.noFaults wStC4 "u" 1).result
        = purchaseService.PurchaseResult.ALREADY_PURCHASED ∧
    redisService.getStock
      (purchaseService.processPurchase 10 purchaseService.noFaults wStC4 "u" 1).state.redis
      1 = some 3 ∧
    redisService.hasUserPurchased
      (purchaseService.processPurchase 10 purchaseService.noFaults wStC4 "u" 1).state.redis
      1 "u" = true ∧
    (purchaseService.processPurchase 10 purchaseService.noFaults wStC4 "u" 1).state.db
        = wStC4.db :=
  C4_duplicate_compensation 10 wStC4 (wSale 3) 1 "u" 3 (by decide) (by decide)
    (by decide) (by decide) (by decide) (by decide) (by decide)

/-- C5: when the durable insert fails with a transient or fatal error
(step 6b), the pipeline compensates fully: counter restored, mark removed,
result ERROR, and the durable log unchanged (no SUCCESS added). -/
theorem C5_full_compensation (now : Int) (st : SysState) (sale : Sale)
    (saleId : Nat) (userId : String) (s : Int)
    (fault : purchaseService.DbFault)
    (hsale : DB.getSaleById st.db saleId = some sale)
    (hactive : saleService.isSaleActive now sale = true)
    (hmark : redisService.hasUserPurchased st.redis saleId userId = false)
    (hnosucc : DB.hasSuccessOrder st.db saleId userId = false)
    (hstock : redisService.getStock st.redis saleId = some s)
    (hpos : 0 ≤ s - 1) :
    (purchaseService.processPurchase now ⟨false, false, false, some fault⟩ st userId saleId).result
        = purchaseService.PurchaseResult.ERROR ∧
    redisService.getStock
      (purchaseService.processPurchase now ⟨false, false, false, some fault⟩ st userId saleId).state.redis
      saleId = some s ∧
    redisService.hasUserPurchased
      (purchaseService.processPurchase now ⟨false, false, false, some fault⟩ st userId saleId).state.redis
      saleId userId = false ∧
    (purchaseService.processPurchase now ⟨false, false, false, some fault⟩ st userId saleId).state.db
        = st.db := by
  have hmark2 : redisService.hasUserPurchased
      ⟨redisService.setStockVal st.redis.stock saleId (s - 1), st.redis.marks⟩
      saleId userId = false := hmark
  refine ⟨?_, ?_, ?_, ?_⟩ <;>
    (simp only [purchaseService.processPurchase, purchaseService.hasUserPurchased,
      redisService.decrementStock, redisService.incrementStock,
      redisService.markUserPurchased, redisService.removeUserPurchaseMark]
     simp [hsale, hactive, hmark, hnosucc, hstock, hmark2,
       show ¬ (s - 1 < 0) by omega, getStock_mk_set, sub_add_cancel]) <;>
    (simp [redisService.hasUserPurchased, any_marks_filter_not]
     try tauto)

/-- Witness for C5: the spec scenario FatalDurable at step 6 against
stock=5 — ERROR, counter back at 5, no mark, no orders. -/
theorem C5_full_compensation_witness :
    (purchaseService.processPurchase 10 ⟨false, false, false,
        some purchaseService.DbFault.FATAL⟩ wStC5 "u" 1).result
        = purchaseService.PurchaseResult.ERROR ∧
    redisService.getStock
      (purchaseService.processPurchase 10 ⟨false, false, false,
        some purchaseService.DbFault.FATAL⟩ wStC5 "u" 1).state.redis 1 = some 5 ∧
    redisService.hasUserPurchased
      (purchaseService.processPurchase 10 ⟨false, false, false,
        some purchaseService.DbFault.FATAL⟩ wStC5 "u" 1).state.redis 1 "u" = false ∧
    (purchaseService.processPurchase 10 ⟨false, false, false,
        some purchaseService.DbFault.FATAL⟩ wStC5 "u" 1).state.db = wStC5.db :=
  C5_full_compensation 10 wStC5 (wSale 5) 1 "u" 5 purchaseService.DbFault.FATAL
    (by decide) (by decide) (by decide) (by decide) (by decide) (by decide)

/-- C6 counterexample: with the coordinator available (no Redis failure)
and the mark merely absent, the pipeline still performs the DOL
duplicate-check read — refuting "performed only when the coordinator is
unavailable". -/
theorem C6_counterexample :
    purchaseService.noFaults.redisCheckFail = false ∧
    redisService.hasUserPurchased wStC6.redis 1 "alice" = false ∧
    purchaseService.Ev.dbDupCheck ∈
      (purchaseService.processPurchase 50 purchaseService.noFaults wStC6 "alice" 1).trace := by
  decide

lemma dbDupCheck_mem_trace (now : Int) (f : purchaseService.Faults)
    (st : SysState) (sale : Sale) (saleId : Nat) (userId : String)
    (hsale : DB.getSaleById st.db saleId = some sale)
    (hactive : saleService.isSaleActive now sale = true)
    (hmem : purchaseService.Ev.dbDupCheck ∈
      (purchaseService.hasUserPurchased f st saleId userId).2) :
    purchaseService.Ev.dbDupCheck ∈
      (purchaseService.processPurchase now f st userId saleId).trace := by
  simp only [purchaseService.processPurchase, hsale, hactive, eq_self_iff_true,
    if_true]
  repeat' split
  all_goals simp_all

/-- C6 (amended): a present mark yields ALREADY_PURCHASED with no further
work (state unchanged, trace is just the sale read and the mark read); the
DOL duplicate-check read is performed whenever the mark is absent or the
coordinator is unavailable, and a SUCCESS row then yields
ALREADY_PURCHASED. -/
theorem C6_fast_mark_check (now : Int) (st : SysState) (sale : Sale)
    (saleId : Nat) (userId : String) (f : purchaseService.Faults)
    (hsale : DB.getSaleById st.db saleId = some sale)
    (hactive : saleService.isSaleActive now sale = true) :
    (f.redisCheckFail = false →
      redisService.hasUserPurchased st.redis saleId userId = true →
      (purchaseService.processPurchase now f st userId saleId).result
          = purchaseService.PurchaseResult.ALREADY_PURCHASED ∧
      (purchaseService.processPurchase now f st userId saleId).state = st ∧
      (purchaseService.processPurchase now f st userId saleId).trace
          = [purchaseService.Ev.dbSaleRead, purchaseService.Ev.redisMarkCheck]) ∧
    ((f.redisCheckFail = true ∨
        redisService.hasUserPurchased st.redis saleId userId = false) →
      purchaseService.Ev.dbDupCheck ∈
        (purchaseService.processPurchase now f st userId saleId).trace ∧
      (DB.hasSuccessOrder st.db saleId userId = true →
        (purchaseService.processPurchase now f st userId saleId).result
            = purchaseService.PurchaseResult.ALREADY_PURCHASED)) := by
  constructor
  · intro hf hm
    refine ⟨?_, ?_, ?_⟩ <;>
      simp [purchaseService.processPurchase, purchaseService.hasUserPurchased,
        hsale, hactive, hf, hm]
  · intro hor
    have hmem : purchaseService.Ev.dbDupCheck ∈
        (purchaseService.hasUserPurchased f st saleId userId).2 := by
      rcases hor with hf | hm
      · simp [purchaseService.hasUserPurchased, hf]
      · by_cases hf : f.redisCheckFail = true
        · simp [purchaseService.hasUserPurchased, hf]
        · rw [Bool.not_eq_true] at hf
          simp [purchaseService.hasUserPurchased, hf, hm]
    refine ⟨dbDupCheck_mem_trace now f st sale saleId userId hsale hactive hmem, ?_⟩
    intro hsucc
    rcases hor with hf | hm
    · simp [purchaseService.processPurchase, purchaseService.hasUserPurchased,
        hsale, hactive, hf, hsucc]
    · by_cases hf : f.redisCheckFail = true
      · simp [purchaseService.processPurchase, purchaseService.hasUserPurchased,
          hsale, hactive, hf, hsucc]
      · rw [Bool.not_eq_true] at hf
        simp [purchaseService.processPurchase, purchaseService.hasUserPurchased,
          hsale, hactive, hf, hm, hsucc]

/-- Witness for C6 (amended): mark hit on wStC6m, and DB fallback hit on
wStC6. -/
theorem C6_fast_mark_check_witness :
    (purchaseService.processPurchase 50 purchaseService.noFaults wStC6m "bob" 1).result
        = purchaseService.PurchaseResult.ALREADY_PURCHASED ∧
    (purchaseService.processPurchase 50 purchaseService.noFaults wStC6m "bob" 1).state
        = wStC6m ∧
    (purchaseService.processPurchase 50 purchaseService.noFaults wStC6 "alice" 1).result
        = purchaseService.PurchaseResult.ALREADY_PURCHASED ∧
    purchaseService.Ev.dbDupCheck ∈
      (purchaseService.processPurchase 50 purchaseService.noFaults wStC6 "alice" 1).trace := by
  have h1 := (C6_fast_mark_check 50 wStC6m (wSale 2) 1 "bob" purchaseService.noFaults
      (by decide) (by decide)).1 (by decide) (by decide)
  have h2 := (C6_fast_mark_check 50 wStC6 (wSale 2) 1 "alice" purchaseService.noFaults
      (by decide) (by decide)).2 (Or.inr (by decide))
  exact ⟨h1.1, h1.2.1, h2.2 (by decide), h2.1⟩

/-- C7: when the atomic decrement itself fails, the pipeline returns ERROR
with the state untouched, performing no compensating increment and no mark
removal (the trace holds only the sale read and the step-2 reads). -/
theorem C7_decr_failure (now : Int) (st : SysState) (sale : Sale)
    (saleId : Nat) (userId : String)
    (hsale : DB.getSaleById st.db saleId = some sale)
    (hactive : saleService.isSaleActive now sale = true)
    (hmark : redisService.hasUserPurchased st.redis saleId userId = false)
    (hnosucc : DB.hasSuccessOrder st.db saleId userId = false) :
    (purchaseService.processPurchase now ⟨false, true, false, none⟩ st userId saleId).result
        = purchaseService.PurchaseResult.ERROR ∧
    (purchaseService.processPurchase now ⟨false, true, false, none⟩ st userId saleId).state
        = st ∧
    (purchaseService.processPurchase now ⟨false, true, false, none⟩ st userId saleId).trace
        = [purchaseService.Ev.dbSaleRead, purchaseService.Ev.redisMarkCheck,
           purchaseService.Ev.dbDupCheck] ∧
    purchaseService.Ev.incrStock ∉
      (purchaseService.processPurchase now ⟨false, true, false, none⟩ st userId saleId).trace ∧
    purchaseService.Ev.removeMark ∉
      (purchaseService.processPurchase now ⟨false, true, false, none⟩ st userId saleId).trace := by
  refine ⟨?_, ?_, ?_, ?_, ?_⟩ <;>
    simp [purchaseService.processPurchase, purchaseService.hasUserPurchased,
      hsale, hactive, hmark, hnosucc]

/-- Witness for C7 at a concrete state. -/
theorem C7_decr_failure_witness :
    (purchaseService.processPurchase 10 ⟨false, true, false, none⟩ wStC7 "u" 1).result
        = purchaseService.PurchaseResult.ERROR ∧
    (purchaseService.processPurchase 10 ⟨false, true, false, none⟩ wStC7 "u" 1).state
        = wStC7 ∧
    (purchaseService.processPurchase 10 ⟨false, true, false, none⟩ wStC7 "u" 1).trace
        = [purchaseService.Ev.dbSaleRead, purchaseService.Ev.redisMarkCheck,
           purchaseService.Ev.dbDupCheck] ∧
    purchaseService.Ev.incrStock ∉
      (purchaseService.processPurchase 10 ⟨false, true, false, none⟩ wStC7 "u" 1).trace ∧
    purchaseService.Ev.removeMark ∉
      (purchaseService.processPurchase 10 ⟨false, true, false, none⟩ wStC7 "u" 1).trace :=
  C7_decr_failure 10 wStC7 (wSale 4) 1 "u" (by decide) (by decide) (by decide)
    (by decide)

/-- C8: after resetSale(sale, S) on an existing sale: the status response
reports remaining_stock = S, the durable log holds no orders for the sale,
and no user marks for the sale remain in the coordinator. -/
theorem C8_reset_round_trip (now : Int) (st : SysState) (sale : Sale)
    (saleId : Nat) (S : Nat)
    (hsale : DB.getSaleById st.db saleId = some sale) :
    (saleService.getSaleStatusResponse now (saleService.resetSale st saleId S) saleId).remainingStock
        = some (S : Int) ∧
    ((saleService.resetSale st saleId S).db.orders.filter
        (fun o => o.saleId == saleId)).length = 0 ∧
    ∀ u : String, redisService.hasUserPurchased
        (saleService.resetSale st saleId S).redis saleId u = false := by
  have hs2 : DB.getSaleById (saleService.resetSale st saleId S).db saleId
      = some { sale with totalStock := S } := by
    simp only [saleService.resetSale, DB.getSaleById]
    exact find?_update_stock st.db.sales saleId S sale
      (by simpa [DB.getSaleById] using hsale)
  refine ⟨?_, ?_, ?_⟩
  · simp only [saleService.getSaleStatusResponse, hs2]
    simp only [saleService.getRemainingStock, saleService.resetSale,
      redisService.initializeStock, getStock_mk_set]
    simp [max_eq_right (Int.natCast_nonneg S)]
  · simp only [saleService.resetSale]
    exact length_filter_eq_of_filter_ne st.db.orders saleId
  · intro u
    simp only [saleService.resetSale, redisService.initializeStock,
      redisService.resetSaleKeys, redisService.hasUserPurchased]
    exact any_marks_filter_ne st.redis.marks saleId u

/-- Witness for C8 at a concrete state with prior orders and marks. -/
theorem C8_reset_round_trip_witness :
    (saleService.getSaleStatusResponse 5 (saleService.resetSale wStC8 1 7) 1).remainingStock
        = some (7 : Int) ∧
    ((saleService.resetSale wStC8 1 7).db.orders.filter
        (fun o => o.saleId == 1)).length = 0 ∧
    redisService.hasUserPurchased (saleService.resetSale wStC8 1 7).redis 1 "u1"
        = false := by
  have h := C8_reset_round_trip 5 wStC8 (wSale 2) 1 7 (by decide)
  exact ⟨h.1, h.2.1, h.2.2 "u1"⟩

/-- C9: after total coordinator loss, InitStock (initializeRedisStock)
followed by RecoverUserMarks (completeRedisRecovery) yields
remaining_stock = total_stock - count(SUCCESS), restores a mark for
exactly the SUCCESS users, and GetUserPurchase.purchased is true for each
previously successful user. -/
theorem C9_crash_recovery (now : Int) (db : DB) (sale : Sale) (saleId : Nat)
    (hsale : DB.getSaleById db saleId = some sale)
    (hcount : DB.countSuccess db saleId ≤ sale.totalStock) :
    (saleService.getSaleStatusResponse now (initThenRecover db saleId) saleId).remainingStock
        = some ((sale.totalStock : Int) - (DB.countSuccess db saleId : Int)) ∧
    (∀ u : String,
      redisService.hasUserPurchased (initThenRecover db saleId).redis saleId u = true
        ↔ u ∈ DB.successUsers db saleId) ∧
    (∀ u : String, DB.hasSuccessOrder db saleId u = true →
      (routes.getUserPurchaseRoute (initThenRecover db saleId) saleId u).1 = true) := by
  have hdb : (initThenRecover db saleId).db = db := rfl
  have hrem : saleService.calculateRemainingStockFromDB db saleId
      = (sale.totalStock : Int) - (DB.countSuccess db saleId : Int) := by
    simp only [saleService.calculateRemainingStockFromDB, hsale]
    omega
  have hgs : redisService.getStock (initThenRecover db saleId).redis saleId
      = some (saleService.calculateRemainingStockFromDB db saleId) := by
    simp only [initThenRecover, saleService.completeRedisRecovery,
      saleService.initializeRedisStock, redisService.initializeStock]
    rw [getStock_foldl_mark]
    exact getStock_mk_set _ _ _ _
  refine ⟨?_, ?_, ?_⟩
  · simp only [saleService.getSaleStatusResponse, hdb, hsale,
      saleService.getRemainingStock, hgs, hrem]
    have hc : (0 : Int) ≤ (sale.totalStock : Int) - (DB.countSuccess db saleId : Int) := by
      omega
    simp [max_eq_right hc]
  · intro u
    simp only [initThenRecover, saleService.completeRedisRecovery,
      saleService.initializeRedisStock, redisService.initializeStock]
    rw [hasMark_foldl_mark]
    simp [redisService.hasUserPurchased, List.any_eq_true]
  · intro u hu
    have hrow := hasSuccessOrder_hasOrderRow hu
    have hiso := getUserPurchase_isSome db saleId u
    rw [hrow] at hiso
    simp only [routes.getUserPurchaseRoute, hdb]
    cases hgp : purchaseService.getUserPurchase db saleId u with
    | none => rw [hgp] at hiso; simp at hiso
    | some o => simp

/-- Witness for C9 at a DB with total stock 3 and two SUCCESS orders. -/
theorem C9_crash_recovery_witness :
    (saleService.getSaleStatusResponse 5 (initThenRecover wDbC9 1) 1).remainingStock
        = some (((wSale 3).totalStock : Int) - (DB.countSuccess wDbC9 1 : Int)) ∧
    (redisService.hasUserPurchased (initThenRecover wDbC9 1).redis 1 "u1" = true
        ↔ "u1" ∈ DB.successUsers wDbC9 1) ∧
    (routes.getUserPurchaseRoute (initThenRecover wDbC9 1) 1 "u2").1 = true := by
  have h := C9_crash_recovery 5 wDbC9 (wSale 3) 1 (by decide) (by decide)
  exact ⟨h.1, h.2.1 "u1", h.2.2 "u2" (by decide)⟩

/-- C10: GetUserPurchase reads only the durable log: the route's answer is
identical under any two coordinator states, and purchased is true exactly
when some orders row for (sale, user) exists, regardless of its status. -/
theorem C10_get_user_purchase (db : DB) (r1 r2 : Redis) (saleId : Nat)
    (userId : String) :
    routes.getUserPurchaseRoute ⟨db, r1⟩ saleId userId
        = routes.getUserPurchaseRoute ⟨db, r2⟩ saleId userId ∧
    ((routes.getUserPurchaseRoute ⟨db, r1⟩ saleId userId).1 = true
        ↔ ∃ o ∈ db.orders, o.saleId = saleId ∧ o.userId = userId) := by
  constructor
  · rfl
  · have hiso := getUserPurchase_isSome db saleId userId
    cases hgp : purchaseService.getUserPurchase db saleId userId with
    | none =>
      rw [hgp] at hiso
      have hno : DB.hasOrderRow db saleId userId = false := by simpa using hiso.symm
      rw [DB.hasOrderRow, List.any_eq_false] at hno
      simp only [routes.getUserPurchaseRoute, hgp]
      constructor
      · intro h; exact absurd h (by simp)
      · rintro ⟨o, ho, h1, h2⟩
        exact absurd (by simp [h1, h2]) (hno o ho)
    | some o =>
      rw [hgp] at hiso
      have hyes : DB.hasOrderRow db saleId userId = true := by simpa using hiso.symm
      rw [DB.hasOrderRow, List.any_eq_true] at hyes
      obtain ⟨b, hb, hcond⟩ := hyes
      simp only [Bool.and_eq_true, beq_iff_eq] at hcond
      simp only [routes.getUserPurchaseRoute, hgp]
      exact iff_of_true (by simp) ⟨b, hb, hcond.1, hcond.2⟩

end FlashSale
